import Mathlib

/-!
# gopherjs-net-http: the XHR transport, the request constructor and AddCookie

A shallow embedding of `transport.go`, `request.go` and `response.go`.

* Go strings are Lean `String`s, byte slices are `List UInt8`.
* Go maps are association lists (`GoMap`) with the builtin lookup, assignment
  and `delete`; a nil map is `none`, and assigning to an entry of a nil map
  panics.
* Pointers to `Request` are identities (`ReqPtr`); the pointee is passed and
  returned explicitly.
* The browser is an explicit `Host`: whether `XMLHttpRequest` exists, the
  handle its constructor returns and the single event (load, error, abort)
  that settles the exchange, if any.  Calls made on the host are recorded in
  order.
* Functions of the Go standard library the package calls (`url.Parse`,
  `textproto.Reader.ReadMIMEHeader`) are parameters; `strconv.ParseInt` with
  base 10 and 64 bits is embedded in full.
-/

namespace GopherjsHttp

/-! ## Go builtins -/

/-- Byte slices (`[]byte`). -/
abbrev Bytes := List UInt8

/-- Go error values, identified by their message. -/
structure GoError where
  message : String
deriving DecidableEq, Repr

/-- Builtin Go map over an association list. -/
abbrev GoMap (κ : Type) (ν : Type) := List (κ × ν)

/-- Map read `m[k]` with the comma-ok result. -/
def GoMap.get? {κ ν : Type} [DecidableEq κ] : GoMap κ ν → κ → Option ν
  | [], _ => none
  | (k', v) :: rest, k => if k' = k then some v else GoMap.get? rest k

/-- Builtin `delete(m, k)`. -/
def GoMap.delete {κ ν : Type} [DecidableEq κ] (m : GoMap κ ν) (k : κ) : GoMap κ ν :=
  m.filter (fun e => decide (e.1 ≠ k))

/-- Map assignment `m[k] = v`. -/
def GoMap.set {κ ν : Type} [DecidableEq κ] (m : GoMap κ ν) (k : κ) (v : ν) : GoMap κ ν :=
  (k, v) :: GoMap.delete m k

/-- Number of entries stored under key `k`. -/
def GoMap.entries {κ ν : Type} [DecidableEq κ] (m : GoMap κ ν) (k : κ) : Nat :=
  m.countP (fun e => decide (e.1 = k))

/-! ## strconv.ParseInt(s, 10, 64) -/

def maxUint64 : Nat := 2 ^ 64 - 1
def minInt64 : Int := -(2 ^ 63)
def maxInt64 : Int := 2 ^ 63 - 1

/-- The two errors of package strconv. -/
inductive NumError
  | syntaxError
  | rangeError
deriving DecidableEq, Repr

deriving instance DecidableEq for Except

/-- The digit loop of `strconv.ParseUint` for base 10 and bit size 64, with
the accumulator `n`. -/
def parseUintLoop (n : Nat) : List Char → Except NumError Nat
  | [] => .ok n
  | c :: rest =>
    if '0' ≤ c ∧ c ≤ '9' then
      let d := c.toNat - '0'.toNat
      -- cutoff = maxUint64/10 + 1: n*10 would overflow
      if n ≥ maxUint64 / 10 + 1 then .error .rangeError
      else
        let n1 := n * 10 + d
        -- n+d overflows: over naturals the wrapped sum is the one past maxUint64
        if n1 > maxUint64 then .error .rangeError
        else parseUintLoop n1 rest
    else .error .syntaxError

/-- Embedding of `strconv.ParseUint(s, 10, 64)`. -/
def ParseUint (s : List Char) : Except NumError Nat :=
  match s with
  | [] => .error .syntaxError
  | _ => parseUintLoop 0 s

/-- Embedding of `strconv.ParseInt(s, 10, 64)`: an optional sign, then
`ParseUint`, then the range check against `1 << 63`. A range error of
`ParseUint` leaves `un = maxUint64`, which fails the range check as well. -/
def ParseInt (s : String) : Except NumError Int :=
  match s.data with
  | [] => .error .syntaxError
  | c :: rest =>
    let neg := c = '-'
    let digits := if c = '+' ∨ c = '-' then rest else c :: rest
    match ParseUint digits with
    | .error .syntaxError => .error .syntaxError
    | .error .rangeError => .error .rangeError
    | .ok un =>
      let cutoff : Nat := 2 ^ 63
      if ¬ neg ∧ un ≥ cutoff then .error .rangeError
      else if neg ∧ un > cutoff then .error .rangeError
      else if neg then .ok (-(un : Int)) else .ok (un : Int)

/-- Specification side: the decimal digits of a natural number, most
significant first, without leading zeros. -/
def decimalDigits (u : Nat) : List Char :=
  if u < 10 then [Nat.digitChar u]
  else decimalDigits (u / 10) ++ [Nat.digitChar (u % 10)]
decreasing_by omega

/-- Specification side: the base-10 text of a signed integer, a minus sign in
front of the digits of a negative one. -/
def base10Text (n : Int) : String :=
  if n < 0 then ⟨'-' :: decimalDigits n.natAbs⟩ else ⟨decimalDigits n.natAbs⟩

/-! ## Headers and cookies -/

/-- Header maps (`type Header map[string][]string`, the same underlying type
as `textproto.MIMEHeader`). -/
abbrev Header := GoMap String (List String)

/-- Modelled from the spec: the canonical form of a header key (header.go is
not among the sources): the first letter and every letter following a hyphen
are upper case, the other letters lower case. -/
def canonicalHeaderKeyAux (upper : Bool) : List Char → List Char
  | [] => []
  | c :: rest =>
    (if upper then c.toUpper else c.toLower) :: canonicalHeaderKeyAux (c = '-') rest

/-- Modelled from the spec: `CanonicalHeaderKey` of header.go. -/
def CanonicalHeaderKey (s : String) : String :=
  ⟨canonicalHeaderKeyAux true s.data⟩

/-- Modelled from the spec: `Header.Get` of header.go (not among the sources):
the first value stored under the canonical form of the key, or the empty
string when there is none. -/
def Header.Get (h : Header) (key : String) : String :=
  match GoMap.get? h (CanonicalHeaderKey key) with
  | some (v :: _) => v
  | _ => ""

/-- Modelled from the spec: `Header.Set` of header.go (not among the sources):
the canonical form of the key is bound to the single value, replacing what was
stored under it. -/
def Header.Set (h : Header) (key value : String) : Header :=
  GoMap.set h (CanonicalHeaderKey key) [value]

/-- Modelled from the spec: the name/value pair of a `Cookie` (cookie.go is
not among the sources). -/
structure Cookie where
  Name : String
  Value : String
deriving DecidableEq, Repr

/-! ## Requests -/

/-- Parsed `url.URL` of the standard library; the package only observes its
`String()` rendering. -/
structure URL where
  text : String
deriving DecidableEq, Repr

/-- Rendering `(*url.URL).String()`. -/
def URL.String (u : URL) : String := u.text

/-- An `io.Reader` value: the bytes it still yields, the error it raises once
they are exhausted (`none` for a clean `io.EOF`), and whether its dynamic type
also implements `io.Closer`. -/
structure Reader where
  pending : Bytes
  failure : Option GoError
  closer : Bool
deriving DecidableEq, Repr

/-- An `io.ReadCloser` value as `NewRequest` and `RoundTrip` build them. -/
inductive ReadCloser
  | self (r : Reader)        -- the reader itself, its own Close
  | nopCloser (r : Reader)   -- `ioutil.NopCloser(r)`
deriving DecidableEq, Repr

/-- The reader under a `ReadCloser`. -/
def ReadCloser.reader : ReadCloser → Reader
  | .self r => r
  | .nopCloser r => r

/-- Embedding of `ioutil.ReadAll`: the bytes read, the error (nil at EOF), and
the stream afterwards, drained. -/
def ReadAll (rc : ReadCloser) : Bytes × Option GoError × ReadCloser :=
  match rc with
  | .self r => (r.pending, r.failure, .self { r with pending := [] })
  | .nopCloser r => (r.pending, r.failure, .nopCloser { r with pending := [] })

/-- Runtime panics of Go. -/
inductive Panic
  | nilMapAssignment   -- "assignment to entry in nil map"
deriving DecidableEq, Repr

/-- A header field that may hold the nil map. -/
abbrev NilableHeader := Option Header

/-- Modelled from the spec: `Header.Get` on a map that may be nil; reading a
nil map finds nothing. -/
def NilableHeader.Get (h : NilableHeader) (key : String) : String :=
  match h with
  | none => ""
  | some m => m.Get key

/-- Modelled from the spec: `Header.Set` on a map that may be nil; the
assignment `h[key] = []string{value}` panics on a nil map. -/
def NilableHeader.Set (h : NilableHeader) (key value : String) : Except Panic Header :=
  match h with
  | none => .error .nilMapAssignment
  | some m => .ok (m.Set key value)

/-- The `Request` struct of request.go; `Header` is `none` for a request
built without a header map. -/
structure Request where
  Method : String
  URL : URL
  Header : NilableHeader
  Body : Option ReadCloser
deriving DecidableEq, Repr

/-- Embedding of `NewRequest` (request.go): `urlParse` is `url.Parse`. The
result is the Go pair `(*Request, error)`. -/
def NewRequest (urlParse : String → Except GoError URL) (method urlStr : String)
    (body : Option Reader) : Option Request × Option GoError :=
  match urlParse urlStr with
  | .error err => (none, some err)
  | .ok u =>
    -- rc, ok := body.(io.ReadCloser)
    let rc : Option ReadCloser :=
      match body with
      | none => none
      | some r => if r.closer then some (.self r) else some (.nopCloser r)
    -- Header: make(Header)
    (some { Method := method, URL := u, Header := some [], Body := rc }, none)

/-- Embedding of `(*Request).AddCookie` (request.go); the two sanitizers of
cookie.go, which is not among the sources, are parameters. The result is the
request object afterwards, or the panic the call ends in. -/
def Request.AddCookie (sanitizeCookieName sanitizeCookieValue : String → String)
    (r : Request) (c : Cookie) : Except Panic Request :=
  let s := sanitizeCookieName c.Name ++ "=" ++ sanitizeCookieValue c.Value
  let c := r.Header.Get "Cookie"
  if c ≠ "" then
    match r.Header.Set "Cookie" (c ++ "; " ++ s) with
    | .error p => .error p
    | .ok h => .ok { r with Header := some h }
  else
    match r.Header.Set "Cookie" s with
    | .error p => .error p
    | .ok h => .ok { r with Header := some h }

/-! ## Responses -/

/-- Pointer identity of a `*Request`. -/
abbrev ReqPtr := Nat

/-- Identity of a host `XMLHttpRequest` object (`*js.Object`). -/
abbrev XHR := Nat

/-- The `Response` struct of response.go. -/
structure Response where
  Status : String
  StatusCode : Nat
  Header : Header
  Body : Option ReadCloser
  ContentLength : Int
  Request : ReqPtr
deriving DecidableEq, Repr

/-! ## The transport -/

/-- The sentinel of transport.go. -/
def errRequestCanceled : GoError :=
  ⟨"code.palmstonegames.com/gopherjs-net-http: request canceled"⟩

/-- The `XHRTransport` struct: `none` is the nil map. -/
structure XHRTransport where
  inflight : Option (GoMap ReqPtr XHR)
deriving DecidableEq, Repr

/-- Map read `t.inflight[req]`; reading a nil map finds nothing. -/
def XHRTransport.lookup (t : XHRTransport) (req : ReqPtr) : Option XHR :=
  match t.inflight with
  | none => none
  | some m => GoMap.get? m req

/-- The event with which the host settles an exchange. -/
inductive Event
  | load (status : Nat) (statusText : String) (allResponseHeaders : String) (response : Bytes)
  | error (detail : String)
  | abort (detail : String)
deriving DecidableEq, Repr

/-- The browser: `XMLHttpRequest` is `none` when `js.Global` has no such
constructor and otherwise the object `New()` returns; `settle` is the one
event fired after `send`, `none` when no event ever fires. -/
structure Host where
  XMLHttpRequest : Option XHR
  settle : Option Event
deriving DecidableEq, Repr

/-- Calls and property writes on the host, in program order. -/
inductive HostCall
  | setHandler (xhr : XHR) (event : String)
  | open (xhr : XHR) (method url : String)
  | setResponseType (xhr : XHR) (value : String)
  | setRequestHeader (xhr : XHR) (key value : String)
  | send (xhr : XHR) (body : Option Bytes)
  | abort (xhr : XHR)
deriving DecidableEq, Repr

/-- How a call of `RoundTrip` ends: it returns the Go pair
`(*Response, error)`, or it stays suspended in the `select`. -/
inductive Completion
  | returned (resp : Option Response) (err : Option GoError)
  | blocked
deriving DecidableEq, Repr

/-- State after a call of `RoundTrip`: how it ended, the transport, the
request object `*req`, and the host calls made. -/
structure Post where
  result : Completion
  transport : XHRTransport
  request : Request
  calls : List HostCall
deriving DecidableEq, Repr

/-- The `onload` handler of `RoundTrip`: the response sent on `respCh`.
`readMIMEHeader` is `textproto.Reader.ReadMIMEHeader` on the given text, its
error dropped; `header.Get` is the lookup of `textproto.MIMEHeader`, the one
`Header.Get` stands for. A slice length fits `int64`, so `int64(len(body))`
is the length itself. -/
def onload (readMIMEHeader : String → Header) (ptr : ReqPtr) (req : Request)
    (status : Nat) (statusText allResponseHeaders : String) (response : Bytes) : Response :=
  let header := readMIMEHeader (allResponseHeaders ++ "\n")
  let body := response
  let contentLength : Int :=
    if req.Method = "HEAD" then
      match ParseInt (header.Get "Content-Length") with
      | .ok l => l
      | .error _ => -1
    else
      (body.length : Int)
  { Status := toString status ++ " " ++ statusText
    StatusCode := status
    Header := header
    ContentLength := contentLength
    Body := some (.nopCloser { pending := body, failure := none, closer := false })
    Request := ptr }

/-- The two loops over `req.Header` issuing `setRequestHeader`; ranging over
a nil map runs no iteration. -/
def setRequestHeaders (xhr : XHR) (h : NilableHeader) : List HostCall :=
  match h with
  | none => []
  | some m =>
    m.flatMap (fun kv => kv.2.map (fun value => HostCall.setRequestHeader xhr kv.1 value))

/-- Embedding of `(*XHRTransport).RoundTrip` (transport.go) for the request
object `req` at address `ptr`. -/
def RoundTrip (readMIMEHeader : String → Header) (host : Host) (t : XHRTransport)
    (ptr : ReqPtr) (req : Request) : Post :=
  match host.XMLHttpRequest with
  | none =>
    { result := .returned none
        (some ⟨"code.palmstonegames.com/gopherjs-net-http: XMLHttpRequest not available"⟩)
      transport := t, request := req, calls := [] }
  | some xhr =>
    -- if t.inflight == nil { t.inflight = map[*Request]*js.Object{} }
    let m0 : GoMap ReqPtr XHR := match t.inflight with
      | none => []
      | some m => m
    -- t.inflight[req] = xhr
    let m1 := GoMap.set m0 ptr xhr
    -- defer delete(t.inflight, req)
    let deferred : XHRTransport := { inflight := some (GoMap.delete m1 ptr) }
    let calls : List HostCall :=
      [.setHandler xhr "onload", .setHandler xhr "onerror", .setHandler xhr "onabort",
       .open xhr req.Method req.URL.String, .setResponseType xhr "arraybuffer"]
        ++ setRequestHeaders xhr req.Header
    let read : Option Bytes × Option GoError × Request :=
      match req.Body with
      | none => (none, none, req)
      | some rc =>
        let r := ReadAll rc
        (some r.1, r.2.1, { req with Body := some r.2.2 })
    match read with
    | (_, some err, req1) =>
      { result := .returned none (some err), transport := deferred, request := req1,
        calls := calls }
    | (body, none, req1) =>
      let calls := calls ++ [.send xhr body]
      match host.settle with
      | none =>
        { result := .blocked, transport := { inflight := some m1 }, request := req1,
          calls := calls }
      | some (.load status statusText allResponseHeaders response) =>
        { result := .returned
            (some (onload readMIMEHeader ptr req1 status statusText allResponseHeaders response))
            none
          transport := deferred, request := req1, calls := calls }
      | some (.error e) =>
        { result := .returned none
            (some ⟨"code.palmstonegames.com/gopherjs-net-http: XMLHttpRequest failed with error: "
              ++ e⟩)
          transport := deferred, request := req1, calls := calls }
      | some (.abort _) =>
        { result := .returned none (some errRequestCanceled)
          transport := deferred, request := req1, calls := calls }

/-- The error `ioutil.ReadAll(req.Body)` returns in `RoundTrip`, `none` when
the request has no body or its body reads to the end. -/
def Request.readError (req : Request) : Option GoError :=
  match req.Body with
  | none => none
  | some rc => (ReadAll rc).2.1

/-! ## A parser instance for concrete header blocks

`RoundTrip` is stated for every header parser. To evaluate it on concrete
header blocks the parser below reads blocks of `Name: value` lines. Lines end
at a line feed with an optional carriage return before it and lose their
trailing blanks; the key ends at the first colon and is put in canonical form;
blanks after the colon are skipped; a line with an empty key is skipped.
Reading stops at the first empty line and at the first line this parser does
not read: a line without a colon, a line that starts with a blank (a
continuation line), a key with a character that is not a token character, or
a value with a control character other than a tab. -/

/-- Splits text at line feeds; `cur` holds the current line, reversed. -/
def splitLines (cur : List Char) : List Char → List (List Char)
  | [] => [cur.reverse]
  | c :: rest =>
    if c = '\n' then cur.reverse :: splitLines [] rest
    else splitLines (c :: cur) rest

/-- Drops one trailing carriage return. -/
def trimCR (line : List Char) : List Char :=
  match line.reverse with
  | '\r' :: r => r.reverse
  | _ => line

/-- Drops trailing spaces and tabs. -/
def trimRight (line : List Char) : List Char :=
  (line.reverse.dropWhile (fun c => decide (c = ' ' ∨ c = '\t'))).reverse

/-- Token characters of a header field name: letters, digits and
the marks of RFC 7230 (39 is the apostrophe, 96 the grave accent). -/
def isTokenChar (c : Char) : Bool :=
  c.isAlphanum || "!#$%&*+-.^_|~".data.contains c || c.toNat == 39 || c.toNat == 96

/-- Characters allowed in a header value: a tab, or anything that is not an
ASCII control character. -/
def isValueChar (c : Char) : Bool :=
  c == '\t' || (0x20 ≤ c.toNat && c.toNat != 0x7f)

/-- Reads header lines into `m` until the first empty line or the first line
that is not a plain `Name: value` line. -/
def readHeaderLines (m : Header) : List (List Char) → Header
  | [] => m
  | line :: rest =>
    let raw := trimCR line
    if raw = [] then m
    else if raw.head? = some ' ' ∨ raw.head? = some '\t' then m
    else
      let kv := trimRight raw
      if ':' ∉ kv then m
      else
        let name := kv.takeWhile (fun c => decide (c ≠ ':'))
        let v := (kv.dropWhile (fun c => decide (c ≠ ':'))).drop 1
        if ¬ name.all isTokenChar then m
        else if ¬ v.all isValueChar then m
        else if name = [] then readHeaderLines m rest
        else
          let key := CanonicalHeaderKey ⟨name⟩
          let value : String := ⟨v.dropWhile (fun c => decide (c = ' ' ∨ c = '\t'))⟩
          let vv := (GoMap.get? m key).getD []
          readHeaderLines (GoMap.set m key (vv ++ [value])) rest

/-- Header parser for blocks of plain `Name: value` lines. -/
def readPlainMIMEHeader (text : String) : Header :=
  readHeaderLines [] (splitLines [] text.data)

/-- Embedding of `(*XHRTransport).CancelRequest` (transport.go): the host
calls made and the transport afterwards. -/
def CancelRequest (t : XHRTransport) (req : ReqPtr) : List HostCall × XHRTransport :=
  match t.lookup req with
  | some xhr => ([.abort xhr], t)
  | none => ([], t)

/-- A URL parser for concrete inputs: as `url.Parse` does, it rejects text
holding an ASCII control character; any other text is kept as it is. -/
def parseRejectingControl (rawurl : String) : Except GoError URL :=
  if rawurl.data.any (fun c => decide (c.toNat < 0x20 ∨ c.toNat = 0x7f)) then
    .error ⟨"net/url: invalid control character in URL"⟩
  else .ok ⟨rawurl⟩

/-! ## Lemmas on maps -/

theorem GoMap.get?_delete_self {κ ν : Type} [DecidableEq κ] (m : GoMap κ ν) (k : κ) :
    GoMap.get? (GoMap.delete m k) k = none := by
  induction m with
  | nil => rfl
  | cons e rest ih =>
    obtain ⟨k', v⟩ := e
    by_cases h : k' = k
    · simpa [GoMap.delete, List.filter_cons, h] using ih
    · simpa [GoMap.delete, List.filter_cons, h, GoMap.get?] using ih

theorem GoMap.entries_delete_self {κ ν : Type} [DecidableEq κ] (m : GoMap κ ν) (k : κ) :
    GoMap.entries (GoMap.delete m k) k = 0 := by
  simp [GoMap.entries, GoMap.delete, List.countP_eq_zero]

theorem GoMap.get?_set_self {κ ν : Type} [DecidableEq κ] (m : GoMap κ ν) (k : κ) (v : ν) :
    GoMap.get? (GoMap.set m k v) k = some v := by
  simp [GoMap.set, GoMap.get?]

theorem GoMap.entries_set_self {κ ν : Type} [DecidableEq κ] (m : GoMap κ ν) (k : κ) (v : ν) :
    GoMap.entries (GoMap.set m k v) k = 1 := by
  have h := GoMap.entries_delete_self m k
  simp only [GoMap.entries] at h
  simp [GoMap.set, GoMap.entries, List.countP_cons, h]

/-! ## Lemmas on ParseInt -/

theorem digitChar_isDigit (d : Nat) (h : d < 10) :
    ('0' ≤ Nat.digitChar d ∧ Nat.digitChar d ≤ '9') ∧
      (Nat.digitChar d).toNat - '0'.toNat = d := by
  interval_cases d <;> decide

theorem parseUintLoop_cons (n : Nat) (c : Char) (rest : List Char) :
    parseUintLoop n (c :: rest) =
      if '0' ≤ c ∧ c ≤ '9' then
        if n ≥ maxUint64 / 10 + 1 then .error .rangeError
        else if n * 10 + (c.toNat - '0'.toNat) > maxUint64 then .error .rangeError
        else parseUintLoop (n * 10 + (c.toNat - '0'.toNat)) rest
      else .error .syntaxError := by
  rw [parseUintLoop]

theorem parseUintLoop_snoc (xs : List Char) (c : Char) (n : Nat) :
    parseUintLoop n (xs ++ [c]) =
      match parseUintLoop n xs with
      | .ok m => parseUintLoop m [c]
      | .error e => .error e := by
  induction xs generalizing n with
  | nil => simp [parseUintLoop]
  | cons x rest ih =>
    rw [List.cons_append, parseUintLoop_cons n x (rest ++ [c]), parseUintLoop_cons n x rest]
    by_cases hx : '0' ≤ x ∧ x ≤ '9'
    · rw [if_pos hx, if_pos hx]
      by_cases h1 : n ≥ maxUint64 / 10 + 1
      · rw [if_pos h1, if_pos h1]
      · rw [if_neg h1, if_neg h1]
        by_cases h2 : n * 10 + (x.toNat - '0'.toNat) > maxUint64
        · rw [if_pos h2, if_pos h2]
        · rw [if_neg h2, if_neg h2]
          exact ih _
    · rw [if_neg hx, if_neg hx]

theorem maxUint64_eq : maxUint64 = 18446744073709551615 := by
  norm_num [maxUint64]

theorem parseUintLoop_digitChar (n d : Nat) (hd : d < 10) (h : n * 10 + d ≤ maxUint64) :
    parseUintLoop n [Nat.digitChar d] = .ok (n * 10 + d) := by
  obtain ⟨hc, hv⟩ := digitChar_isDigit d hd
  rw [parseUintLoop_cons, if_pos hc, hv]
  rw [maxUint64_eq] at h ⊢
  rw [if_neg (by omega), if_neg (by omega)]
  rfl

theorem parseUintLoop_decimalDigits (u : Nat) (h : u ≤ maxUint64) :
    parseUintLoop 0 (decimalDigits u) = .ok u := by
  induction u using Nat.strong_induction_on with
  | _ u ih =>
    rw [decimalDigits]
    by_cases hu : u < 10
    · rw [if_pos hu, parseUintLoop_digitChar 0 u hu (by omega)]
      congr 1
      omega
    · have hq : u / 10 < u := by omega
      have hq' : u / 10 ≤ maxUint64 := by omega
      rw [if_neg hu, parseUintLoop_snoc, ih (u / 10) hq hq']
      show parseUintLoop (u / 10) [Nat.digitChar (u % 10)] = _
      rw [parseUintLoop_digitChar (u / 10) (u % 10) (by omega) (by omega)]
      congr 1
      omega

theorem decimalDigits_all_digits (u : Nat) :
    ∀ c ∈ decimalDigits u, '0' ≤ c ∧ c ≤ '9' := by
  induction u using Nat.strong_induction_on with
  | _ u ih =>
    intro c hc
    rw [decimalDigits] at hc
    by_cases hu : u < 10
    · simp only [hu, if_true, List.mem_singleton] at hc
      subst hc
      exact (digitChar_isDigit u hu).1
    · simp only [hu, if_false, List.mem_append, List.mem_singleton] at hc
      rcases hc with hc | hc
      · exact ih (u / 10) (by omega) c hc
      · subst hc
        exact (digitChar_isDigit (u % 10) (by omega)).1

theorem decimalDigits_ne_nil (u : Nat) : decimalDigits u ≠ [] := by
  rw [decimalDigits]
  split_ifs <;> simp

theorem ParseUint_decimalDigits (u : Nat) (h : u ≤ maxUint64) :
    ParseUint (decimalDigits u) = .ok u := by
  have hne := decimalDigits_ne_nil u
  have hl := parseUintLoop_decimalDigits u h
  unfold ParseUint
  split
  · exact absurd (by assumption) hne
  · exact hl

/-- The base-10 text of every signed 64-bit integer parses to that integer. -/
theorem ParseInt_base10Text (n : Int) (hlo : minInt64 ≤ n) (hhi : n ≤ maxInt64) :
    ParseInt (base10Text n) = .ok n := by
  simp only [minInt64, maxInt64] at hlo hhi
  have hu : n.natAbs ≤ maxUint64 := by rw [maxUint64_eq]; omega
  have hp := ParseUint_decimalDigits n.natAbs hu
  by_cases hn : n < 0
  · have hd : (base10Text n).data = '-' :: decimalDigits n.natAbs := by
      simp [base10Text, hn]
    unfold ParseInt
    rw [hd]
    simp only [or_true, if_true, hp, true_and, not_true, false_and, if_false]
    have h1 : ¬ (n.natAbs > 2 ^ 63) := by omega
    simp only [h1, if_false]
    congr 1
    omega
  · have hd : (base10Text n).data = decimalDigits n.natAbs := by
      simp [base10Text, hn]
    unfold ParseInt
    rw [hd]
    have hall := decimalDigits_all_digits n.natAbs
    have hne := decimalDigits_ne_nil n.natAbs
    cases hds : decimalDigits n.natAbs with
    | nil => exact absurd hds hne
    | cons c rest =>
      rw [hds] at hp hall
      have hc := hall c (by simp)
      have hplus : c ≠ '+' := by
        rintro rfl
        exact absurd hc.1 (by decide)
      have hminus : c ≠ '-' := by
        rintro rfl
        exact absurd hc.1 (by decide)
      simp only [hplus, hminus, or_self, if_false, hp, not_false_eq_true, true_and, false_and]
      have h1 : ¬ (n.natAbs ≥ 2 ^ 63) := by omega
      simp only [h1, if_false]
      congr 1
      omega

/-! ## Evaluations on concrete texts -/

theorem ParseInt_examples :
    ParseInt "42" = .ok 42 ∧ ParseInt "-5" = .ok (-5) ∧ ParseInt "+7" = .ok 7 ∧
    ParseInt "007" = .ok 7 ∧
    ParseInt "" = .error .syntaxError ∧ ParseInt "-" = .error .syntaxError ∧
    ParseInt "4_2" = .error .syntaxError ∧ ParseInt " 42" = .error .syntaxError ∧
    ParseInt "9223372036854775807" = .ok 9223372036854775807 ∧
    ParseInt "9223372036854775808" = .error .rangeError ∧
    ParseInt "-9223372036854775808" = .ok (-9223372036854775808) ∧
    ParseInt "-9223372036854775809" = .error .rangeError ∧
    ParseInt "99999999999999999999999" = .error .rangeError := by
  decide

theorem readPlainMIMEHeader_examples :
    readPlainMIMEHeader "Content-Length: 42\r\nX-A: b\r\n\n" =
      [("X-A", ["b"]), ("Content-Length", ["42"])] ∧
    readPlainMIMEHeader "content-length:   -5\r\n\r\n\n" = [("Content-Length", ["-5"])] ∧
    readPlainMIMEHeader "Set-Cookie: a=1\r\nSet-Cookie: b=2\r\n\n" =
      [("Set-Cookie", ["a=1", "b=2"])] ∧
    readPlainMIMEHeader "Content-Length: 42 \r\n\n" = [("Content-Length", ["42"])] ∧
    readPlainMIMEHeader "A: 1\r\nB C: 2\r\nD: 3\r\n\n" = [("A", ["1"])] ∧
    readPlainMIMEHeader "A: 1\r\n b\r\n\n" = [("A", ["1"])] ∧
    readPlainMIMEHeader "\n" = [] := by
  decide

/-! ## Lemmas on RoundTrip -/

/-- On the load outcome `RoundTrip` returns what `onload` builds from the
request object as it is after the body was read. -/
theorem RoundTrip_load (rm : String → Header) (host : Host) (t : XHRTransport)
    (ptr : ReqPtr) (req : Request) (xhr : XHR) (status : Nat)
    (statusText hdrs : String) (body : Bytes)
    (hx : host.XMLHttpRequest = some xhr) (hb : req.readError = none)
    (hs : host.settle = some (.load status statusText hdrs body)) :
    (RoundTrip rm host t ptr req).result =
        .returned (some (onload rm ptr (RoundTrip rm host t ptr req).request
          status statusText hdrs body)) none ∧
      (RoundTrip rm host t ptr req).request.Method = req.Method := by
  unfold RoundTrip
  cases hB : req.Body with
  | none => simp [hx, hs]
  | some rc =>
    have hb' : (ReadAll rc).2.1 = none := by simpa [Request.readError, hB] using hb
    simp [hx, hs, hb']

/-- With a host handle available, `RoundTrip` either stays suspended with the
entry registered, or returns with the deferred `delete` applied. -/
theorem RoundTrip_transport (rm : String → Header) (host : Host) (t : XHRTransport)
    (ptr : ReqPtr) (req : Request) (xhr : XHR) (hx : host.XMLHttpRequest = some xhr) :
    ((RoundTrip rm host t ptr req).result = .blocked ∧
        (RoundTrip rm host t ptr req).transport =
          ⟨some (GoMap.set (t.inflight.getD []) ptr xhr)⟩) ∨
      ((∃ r e, (RoundTrip rm host t ptr req).result = .returned r e) ∧
        (RoundTrip rm host t ptr req).transport =
          ⟨some (GoMap.delete (GoMap.set (t.inflight.getD []) ptr xhr) ptr)⟩) := by
  have hm : (match t.inflight with | none => ([] : GoMap ReqPtr XHR) | some m => m) =
      t.inflight.getD [] := by
    cases t.inflight <;> rfl
  unfold RoundTrip
  simp only [hx, hm]
  cases hB : req.Body with
  | none =>
    cases hs : host.settle with
    | none => simp
    | some ev => cases ev <;> simp
  | some rc =>
    cases hr : (ReadAll rc).2.1 with
    | some err => simp [hr]
    | none =>
      cases hs : host.settle with
      | none => simp [hr]
      | some ev => cases ev <;> simp [hr]

/-- A failure to read the request body makes `RoundTrip` return that error. -/
theorem RoundTrip_readError (rm : String → Header) (host : Host) (t : XHRTransport)
    (ptr : ReqPtr) (req : Request) (xhr : XHR) (err : GoError)
    (hx : host.XMLHttpRequest = some xhr) (hb : req.readError = some err) :
    (RoundTrip rm host t ptr req).result = .returned none (some err) := by
  unfold RoundTrip
  cases hB : req.Body with
  | none => simp [Request.readError, hB] at hb
  | some rc =>
    have hb' : (ReadAll rc).2.1 = some err := by simpa [Request.readError, hB] using hb
    simp [hx, hb']

/-- Once the body is read, an event of the host makes `RoundTrip` return. -/
theorem RoundTrip_settles (rm : String → Header) (host : Host) (t : XHRTransport)
    (ptr : ReqPtr) (req : Request) (xhr : XHR) (ev : Event)
    (hx : host.XMLHttpRequest = some xhr) (hb : req.readError = none)
    (hs : host.settle = some ev) :
    ∃ r e, (RoundTrip rm host t ptr req).result = .returned r e := by
  unfold RoundTrip
  cases hB : req.Body with
  | none => cases ev <;> simp [hx, hs]
  | some rc =>
    have hb' : (ReadAll rc).2.1 = none := by simpa [Request.readError, hB] using hb
    cases ev <;> simp [hx, hs, hb']

/-- On the abort outcome `RoundTrip` returns the sentinel. -/
theorem RoundTrip_abort (rm : String → Header) (host : Host) (t : XHRTransport)
    (ptr : ReqPtr) (req : Request) (xhr : XHR) (detail : String)
    (hx : host.XMLHttpRequest = some xhr) (hb : req.readError = none)
    (hs : host.settle = some (.abort detail)) :
    (RoundTrip rm host t ptr req).result = .returned none (some errRequestCanceled) := by
  unfold RoundTrip
  cases hB : req.Body with
  | none => simp [hx, hs]
  | some rc =>
    have hb' : (ReadAll rc).2.1 = none := by simpa [Request.readError, hB] using hb
    simp [hx, hs, hb']

theorem canonical_ContentLength : CanonicalHeaderKey "Content-Length" = "Content-Length" := by
  decide

theorem canonical_Cookie : CanonicalHeaderKey "Cookie" = "Cookie" := by
  decide

/-! ## The content length of a delivered response -/

/-- C1: for a request whose method is not exactly "HEAD", the response that
`RoundTrip` returns on the load outcome has `ContentLength` equal to the
number of bytes of the decoded body, for every header block the host reports
and every way of parsing it. -/
theorem RoundTrip_contentLength_default (rm : String → Header) (host : Host)
    (t : XHRTransport) (ptr : ReqPtr) (req : Request) (xhr : XHR) (status : Nat)
    (statusText hdrs : String) (body : Bytes)
    (hm : req.Method ≠ "HEAD")
    (hx : host.XMLHttpRequest = some xhr) (hb : req.readError = none)
    (hs : host.settle = some (.load status statusText hdrs body)) :
    ∃ resp, (RoundTrip rm host t ptr req).result = .returned (some resp) none ∧
      resp.ContentLength = (body.length : Int) := by
  obtain ⟨hr, hmeth⟩ := RoundTrip_load rm host t ptr req xhr status statusText hdrs body hx hb hs
  refine ⟨_, hr, ?_⟩
  have hm' : (RoundTrip rm host t ptr req).request.Method ≠ "HEAD" := by
    rw [hmeth]; exact hm
  simp [onload, hm']

/-- C1 at a GET request, a body of 17 bytes and a reported header
`Content-Length: 99`: the content length is 17. -/
theorem RoundTrip_contentLength_default_witness :
    (⟨"GET", ⟨"http://example.com/"⟩, some [], none⟩ : Request).Method ≠ "HEAD" ∧
    ∃ resp, (RoundTrip readPlainMIMEHeader
        ⟨some 1, some (.load 200 "OK" "Content-Length: 99\r\n" (List.replicate 17 0))⟩
        ⟨none⟩ 5 ⟨"GET", ⟨"http://example.com/"⟩, some [], none⟩).result
          = .returned (some resp) none ∧
      resp.ContentLength = ((List.replicate 17 (0 : UInt8)).length : Int) ∧
      ((List.replicate 17 (0 : UInt8)).length : Int) = 17 := by
  refine ⟨by decide, ?_⟩
  obtain ⟨resp, h1, h2⟩ := RoundTrip_contentLength_default readPlainMIMEHeader
    ⟨some 1, some (.load 200 "OK" "Content-Length: 99\r\n" (List.replicate 17 0))⟩
    ⟨none⟩ 5 ⟨"GET", ⟨"http://example.com/"⟩, some [], none⟩ 1 200 "OK" "Content-Length: 99\r\n"
    (List.replicate 17 0) (by decide) rfl rfl rfl
  exact ⟨resp, h1, h2, by simp⟩

/-- C2: for a request whose method is exactly "HEAD", the response that
`RoundTrip` returns on the load outcome has `ContentLength` equal to `n` when
the first `Content-Length` value of the parsed headers is the base-10 text of
a signed 64-bit integer `n` (more generally whenever `ParseInt` accepts it as
`n`), and equal to -1 when the header is absent or `ParseInt` rejects its
value; the same holds whatever body the host delivers. -/
theorem RoundTrip_contentLength_HEAD (rm : String → Header) (host : Host)
    (t : XHRTransport) (ptr : ReqPtr) (req : Request) (xhr : XHR) (status : Nat)
    (statusText hdrs : String) (body : Bytes)
    (hm : req.Method = "HEAD")
    (hx : host.XMLHttpRequest = some xhr) (hb : req.readError = none)
    (hs : host.settle = some (.load status statusText hdrs body)) :
    ∃ resp, (RoundTrip rm host t ptr req).result = .returned (some resp) none ∧
      (∀ n : Int, minInt64 ≤ n → n ≤ maxInt64 →
        (rm (hdrs ++ "\n")).Get "Content-Length" = base10Text n → resp.ContentLength = n) ∧
      (∀ n : Int, ParseInt ((rm (hdrs ++ "\n")).Get "Content-Length") = .ok n →
        resp.ContentLength = n) ∧
      (GoMap.get? (rm (hdrs ++ "\n")) "Content-Length" = none → resp.ContentLength = -1) ∧
      (∀ e, ParseInt ((rm (hdrs ++ "\n")).Get "Content-Length") = .error e →
        resp.ContentLength = -1) ∧
      (∀ body' : Bytes, ∃ resp',
        (RoundTrip rm { host with settle := some (.load status statusText hdrs body') }
          t ptr req).result = .returned (some resp') none ∧
        resp'.ContentLength = resp.ContentLength) := by
  obtain ⟨hr, hmeth⟩ := RoundTrip_load rm host t ptr req xhr status statusText hdrs body hx hb hs
  rw [← hmeth] at hm
  have hcl : ∀ (r : Request) (b : Bytes), r.Method = "HEAD" →
      (onload rm ptr r status statusText hdrs b).ContentLength =
        match ParseInt ((rm (hdrs ++ "\n")).Get "Content-Length") with
        | .ok l => l
        | .error _ => -1 := by
    intro r b hr
    simp [onload, hr]
  refine ⟨_, hr, ?_, ?_, ?_, ?_, ?_⟩
  · intro n hlo hhi hv
    rw [hcl _ _ hm, hv, ParseInt_base10Text n hlo hhi]
  · intro n hv
    rw [hcl _ _ hm, hv]
  · intro habs
    have hget : (rm (hdrs ++ "\n")).Get "Content-Length" = "" := by
      simp [Header.Get, canonical_ContentLength, habs]
    rw [hcl _ _ hm, hget]
    rfl
  · intro e hv
    rw [hcl _ _ hm, hv]
  · intro body'
    obtain ⟨hr', hmeth'⟩ := RoundTrip_load rm
      { host with settle := some (.load status statusText hdrs body') } t ptr req xhr
      status statusText hdrs body' hx hb rfl
    refine ⟨_, hr', ?_⟩
    have hm' := hm
    rw [hmeth] at hm'
    rw [← hmeth'] at hm'
    rw [hcl _ _ hm, hcl _ _ hm']

/-- C2 at a HEAD request with reported header `Content-Length: 42` and an
empty body: the content length is 42. -/
theorem RoundTrip_contentLength_HEAD_witness :
    (readPlainMIMEHeader ("Content-Length: 42\r\n" ++ "\n")).Get "Content-Length"
        = base10Text 42 ∧
    ∃ resp, (RoundTrip readPlainMIMEHeader
        ⟨some 1, some (.load 200 "OK" "Content-Length: 42\r\n" [])⟩
        ⟨none⟩ 5 ⟨"HEAD", ⟨"http://example.com/"⟩, some [], none⟩).result
          = .returned (some resp) none ∧
      resp.ContentLength = 42 := by
  have htext : (readPlainMIMEHeader ("Content-Length: 42\r\n" ++ "\n")).Get "Content-Length"
      = base10Text 42 := by
    have h1 : base10Text 42 = "42" := by simp [base10Text, decimalDigits]; rfl
    rw [h1]
    decide
  refine ⟨htext, ?_⟩
  obtain ⟨resp, h1, h2, _⟩ := RoundTrip_contentLength_HEAD readPlainMIMEHeader
    ⟨some 1, some (.load 200 "OK" "Content-Length: 42\r\n" [])⟩
    ⟨none⟩ 5 ⟨"HEAD", ⟨"http://example.com/"⟩, some [], none⟩ 1 200 "OK" "Content-Length: 42\r\n"
    [] rfl rfl rfl rfl
  exact ⟨resp, h1, h2 42 (by decide) (by decide) htext⟩

/-! ## The in-flight mapping -/

/-- C4: when `RoundTrip` has registered a host handle for `req` and returns,
the in-flight mapping has no entry for `req`. It returns on a failure to read
the request body and, once the body is read, on each of the load, error and
abort events; the mapping the transport had before the call, with or without
an entry for `req`, makes no difference. -/
theorem RoundTrip_inflight_removed (rm : String → Header) (host : Host)
    (t : XHRTransport) (ptr : ReqPtr) (req : Request) (xhr : XHR)
    (hx : host.XMLHttpRequest = some xhr) :
    (∀ r e, (RoundTrip rm host t ptr req).result = .returned r e →
      (RoundTrip rm host t ptr req).transport.lookup ptr = none ∧
      ∃ m, (RoundTrip rm host t ptr req).transport.inflight = some m ∧
        GoMap.entries m ptr = 0) ∧
    (∀ err, req.readError = some err →
      (RoundTrip rm host t ptr req).result = .returned none (some err)) ∧
    (∀ ev, req.readError = none → host.settle = some ev →
      ∃ r e, (RoundTrip rm host t ptr req).result = .returned r e) := by
  refine ⟨?_, ?_, ?_⟩
  · intro r e hret
    rcases RoundTrip_transport rm host t ptr req xhr hx with ⟨hblk, _⟩ | ⟨_, htr⟩
    · rw [hblk] at hret
      cases hret
    · rw [htr]
      exact ⟨by simp [XHRTransport.lookup, GoMap.get?_delete_self],
        _, rfl, GoMap.entries_delete_self _ _⟩
  · intro err hb
    exact RoundTrip_readError rm host t ptr req xhr err hx hb
  · intro ev hb hs
    exact RoundTrip_settles rm host t ptr req xhr ev hx hb hs

/-- C4 at a transport that already holds an entry for the request, on the
abort outcome. -/
theorem RoundTrip_inflight_removed_witness :
    (⟨some 9, some (.abort "")⟩ : Host).XMLHttpRequest = some 9 ∧
    (⟨some [(5, 3), (6, 4)]⟩ : XHRTransport).lookup 5 = some 3 ∧
    (RoundTrip readPlainMIMEHeader ⟨some 9, some (.abort "")⟩ ⟨some [(5, 3), (6, 4)]⟩ 5
        ⟨"GET", ⟨"http://example.com/"⟩, some [], none⟩).result
      = .returned none (some errRequestCanceled) ∧
    (RoundTrip readPlainMIMEHeader ⟨some 9, some (.abort "")⟩ ⟨some [(5, 3), (6, 4)]⟩ 5
        ⟨"GET", ⟨"http://example.com/"⟩, some [], none⟩).transport.lookup 5 = none :=
  ⟨rfl, by decide, by decide,
    ((RoundTrip_inflight_removed readPlainMIMEHeader ⟨some 9, some (.abort "")⟩
      ⟨some [(5, 3), (6, 4)]⟩ 5 ⟨"GET", ⟨"http://example.com/"⟩, some [], none⟩ 9 rfl).1
        none (some errRequestCanceled) (by decide)).1⟩

/-- C5: when the exchange settles with the abort event, `RoundTrip` returns
no response together with the sentinel `errRequestCanceled`, whatever the
method, headers and body of the request and the detail the host passes. -/
theorem RoundTrip_abort_canceled (rm : String → Header) (host : Host)
    (t : XHRTransport) (ptr : ReqPtr) (req : Request) (xhr : XHR) (detail : String)
    (hx : host.XMLHttpRequest = some xhr) (hb : req.readError = none)
    (hs : host.settle = some (.abort detail)) :
    (RoundTrip rm host t ptr req).result = .returned none (some errRequestCanceled) ∧
      errRequestCanceled.message =
        "code.palmstonegames.com/gopherjs-net-http: request canceled" :=
  ⟨RoundTrip_abort rm host t ptr req xhr detail hx hb hs, rfl⟩

/-- C5 at a POST request with headers and a body. -/
theorem RoundTrip_abort_canceled_witness :
    (⟨some 2, some (.abort "user")⟩ : Host).XMLHttpRequest = some 2 ∧
    (⟨"POST", ⟨"http://example.com/x"⟩, some [("Accept", ["a", "b"])],
        some (.nopCloser ⟨[1, 2, 3], none, false⟩)⟩ : Request).readError = none ∧
    (RoundTrip readPlainMIMEHeader ⟨some 2, some (.abort "user")⟩ ⟨none⟩ 7
        ⟨"POST", ⟨"http://example.com/x"⟩, some [("Accept", ["a", "b"])],
          some (.nopCloser ⟨[1, 2, 3], none, false⟩)⟩).result
      = .returned none (some errRequestCanceled) :=
  ⟨rfl, rfl,
    (RoundTrip_abort_canceled readPlainMIMEHeader ⟨some 2, some (.abort "user")⟩ ⟨none⟩ 7
      ⟨"POST", ⟨"http://example.com/x"⟩, some [("Accept", ["a", "b"])],
        some (.nopCloser ⟨[1, 2, 3], none, false⟩)⟩ 2 "user" rfl rfl rfl).1⟩

/-- C6: `CancelRequest` issues an abort call on the host handle exactly when
the request has an entry in the in-flight mapping (a nil mapping has none);
without an entry it makes no host call; the transport, its mapping included,
is the same afterwards. -/
theorem CancelRequest_spec (t : XHRTransport) (req : ReqPtr) :
    ((∃ xhr, HostCall.abort xhr ∈ (CancelRequest t req).1) ↔ (t.lookup req).isSome) ∧
    (∀ xhr, t.lookup req = some xhr → (CancelRequest t req).1 = [.abort xhr]) ∧
    (t.lookup req = none → (CancelRequest t req).1 = []) ∧
    (t.inflight = none → (CancelRequest t req).1 = []) ∧
    (CancelRequest t req).2 = t := by
  unfold CancelRequest
  cases h : t.lookup req with
  | none =>
    refine ⟨by simp, by simp, by simp, by simp, rfl⟩
  | some x =>
    refine ⟨by simp, by simp, by simp, ?_, rfl⟩
    intro hnil
    simp [XHRTransport.lookup, hnil] at h

/-- C6 at a transport whose mapping was never initialised: no host call, the
transport as before. -/
theorem CancelRequest_spec_witness :
    (⟨none⟩ : XHRTransport).inflight = none ∧
    (CancelRequest ⟨none⟩ 5).1 = [] ∧ (CancelRequest ⟨none⟩ 5).2 = ⟨none⟩ :=
  ⟨rfl, (CancelRequest_spec ⟨none⟩ 5).2.2.2.1 rfl, (CancelRequest_spec ⟨none⟩ 5).2.2.2.2⟩

/-! ## The request constructor and AddCookie -/

/-- C7: `NewRequest` fails exactly when the URL text does not parse; it then
returns no request together with the parse error, and otherwise a request
(with the given method, the parsed URL and an empty header) and no error. -/
theorem NewRequest_fails_iff (urlParse : String → Except GoError URL)
    (method urlStr : String) (body : Option Reader) :
    ((NewRequest urlParse method urlStr body).2 ≠ none ↔ ∃ e, urlParse urlStr = .error e) ∧
    ((NewRequest urlParse method urlStr body).1 = none ↔ ∃ e, urlParse urlStr = .error e) ∧
    (∀ e, urlParse urlStr = .error e →
      NewRequest urlParse method urlStr body = (none, some e)) ∧
    (∀ u, urlParse urlStr = .ok u →
      ∃ r, NewRequest urlParse method urlStr body = (some r, none) ∧
        r.Method = method ∧ r.URL = u ∧ r.Header = some []) := by
  unfold NewRequest
  cases h : urlParse urlStr with
  | error e => simp
  | ok u => simp

/-- C7 at a URL with a control character in the host part, for a parser that
rejects control characters: no request, the parse error. -/
theorem NewRequest_fails_iff_witness :
    parseRejectingControl "http://exa\x01mple.com/" =
        .error ⟨"net/url: invalid control character in URL"⟩ ∧
    NewRequest parseRejectingControl "GET" "http://exa\x01mple.com/" none =
        (none, some ⟨"net/url: invalid control character in URL"⟩) :=
  ⟨by decide,
    (NewRequest_fails_iff parseRejectingControl "GET" "http://exa\x01mple.com/" none).2.2.1
      ⟨"net/url: invalid control character in URL"⟩ (by decide)⟩

theorem cookiePair_ne_empty (a b : String) : a ++ "=" ++ b ≠ "" := by
  intro hab
  have hd : (a ++ "=" ++ b).data = [] := by rw [hab]
  simp [String.data_append] at hd

/-- On a request whose header map is not nil, `AddCookie` sets the single
Cookie value and returns. -/
theorem AddCookie_ok (sanitizeCookieName sanitizeCookieValue : String → String)
    (r : Request) (h : Header) (c : Cookie) (hh : r.Header = some h) :
    r.AddCookie sanitizeCookieName sanitizeCookieValue c =
      .ok { r with Header := some (h.Set "Cookie"
        (if h.Get "Cookie" = "" then
          sanitizeCookieName c.Name ++ "=" ++ sanitizeCookieValue c.Value
        else h.Get "Cookie" ++ "; " ++
          (sanitizeCookieName c.Name ++ "=" ++ sanitizeCookieValue c.Value))) } := by
  unfold Request.AddCookie
  by_cases hp : h.Get "Cookie" = ""
  · simp [hh, NilableHeader.Get, NilableHeader.Set, hp]
  · simp [hh, NilableHeader.Get, NilableHeader.Set, hp]

/-- C3, the claim as stated fails: on a request built without a header map
`AddCookie` panics in `Header.Set`, so no request holding a Cookie value
results. -/
theorem AddCookie_nil_header_panics :
    Request.AddCookie (fun n => n) (fun v => v)
        ⟨"GET", ⟨"http://example.com/"⟩, none, none⟩ ⟨"a", "1"⟩ = .error .nilMapAssignment ∧
    ¬ ∃ r1 h1, Request.AddCookie (fun n => n) (fun v => v)
        ⟨"GET", ⟨"http://example.com/"⟩, none, none⟩ ⟨"a", "1"⟩ = .ok r1 ∧
      r1.Header = some h1 ∧ GoMap.entries h1 "Cookie" = 1 := by
  have hp : Request.AddCookie (fun n => n) (fun v => v)
      ⟨"GET", ⟨"http://example.com/"⟩, none, none⟩ ⟨"a", "1"⟩ = .error .nilMapAssignment := by
    decide
  refine ⟨hp, ?_⟩
  rintro ⟨r1, h1, hok, _⟩
  rw [hp] at hok
  cases hok

/-- C3, amended: for a request whose header map is not nil, `AddCookie(c)`
returns and the header then holds exactly one value under "Cookie". With `s`
the sanitized name, "=", and the sanitized value, that value is `s` when the
first Cookie value was absent or empty before, and the previous first value,
"; " and `s` otherwise. On a request with an empty header map, adding (a,1)
then (b,2), with sanitizers that leave these four texts alone, gives the
single value "a=1; b=2". -/
theorem AddCookie_spec (sanitizeCookieName sanitizeCookieValue : String → String)
    (r : Request) (h : Header) (c : Cookie) (hh : r.Header = some h) :
    (∃ r1 h1, r.AddCookie sanitizeCookieName sanitizeCookieValue c = .ok r1 ∧
      r1.Header = some h1 ∧
      GoMap.get? h1 "Cookie" =
        some [if h.Get "Cookie" = "" then
            sanitizeCookieName c.Name ++ "=" ++ sanitizeCookieValue c.Value
          else h.Get "Cookie" ++ "; " ++
            (sanitizeCookieName c.Name ++ "=" ++ sanitizeCookieValue c.Value)] ∧
      GoMap.entries h1 "Cookie" = 1) ∧
    (GoMap.get? h "Cookie" = none → h.Get "Cookie" = "") ∧
    (∀ prev rest, GoMap.get? h "Cookie" = some (prev :: rest) → h.Get "Cookie" = prev) ∧
    (h = [] → ∀ c2 : Cookie, ∃ r1 r2 h2,
      r.AddCookie sanitizeCookieName sanitizeCookieValue c = .ok r1 ∧
      r1.AddCookie sanitizeCookieName sanitizeCookieValue c2 = .ok r2 ∧
      r2.Header = some h2 ∧
      GoMap.get? h2 "Cookie"
        = some [sanitizeCookieName c.Name ++ "=" ++ sanitizeCookieValue c.Value ++ "; " ++
            (sanitizeCookieName c2.Name ++ "=" ++ sanitizeCookieValue c2.Value)] ∧
      GoMap.entries h2 "Cookie" = 1) ∧
    (h = [] → sanitizeCookieName "a" = "a" → sanitizeCookieValue "1" = "1" →
      sanitizeCookieName "b" = "b" → sanitizeCookieValue "2" = "2" →
      ∃ r1 r2 h2,
        r.AddCookie sanitizeCookieName sanitizeCookieValue ⟨"a", "1"⟩ = .ok r1 ∧
        r1.AddCookie sanitizeCookieName sanitizeCookieValue ⟨"b", "2"⟩ = .ok r2 ∧
        r2.Header = some h2 ∧
        GoMap.get? h2 "Cookie" = some ["a=1; b=2"] ∧
        GoMap.entries h2 "Cookie" = 1) := by
  have hset : ∀ (m : Header) (v : String),
      GoMap.get? (m.Set "Cookie" v) "Cookie" = some [v] ∧
        GoMap.entries (m.Set "Cookie" v) "Cookie" = 1 ∧ (m.Set "Cookie" v).Get "Cookie" = v := by
    intro m v
    refine ⟨?_, ?_, ?_⟩
    · simp [Header.Set, canonical_Cookie, GoMap.get?_set_self]
    · simp [Header.Set, canonical_Cookie, GoMap.entries_set_self]
    · simp [Header.Get, Header.Set, canonical_Cookie, GoMap.get?_set_self]
  have hempty : h = [] → h.Get "Cookie" = "" := by
    intro hfresh
    rw [hfresh]
    rfl
  have htwo : h = [] → ∀ k1 k2 : Cookie, ∃ r1 r2 h2,
      r.AddCookie sanitizeCookieName sanitizeCookieValue k1 = .ok r1 ∧
      r1.AddCookie sanitizeCookieName sanitizeCookieValue k2 = .ok r2 ∧
      r2.Header = some h2 ∧
      GoMap.get? h2 "Cookie"
        = some [sanitizeCookieName k1.Name ++ "=" ++ sanitizeCookieValue k1.Value ++ "; " ++
            (sanitizeCookieName k2.Name ++ "=" ++ sanitizeCookieValue k2.Value)] ∧
      GoMap.entries h2 "Cookie" = 1 := by
    intro hfresh k1 k2
    have h1 := AddCookie_ok sanitizeCookieName sanitizeCookieValue r h k1 hh
    rw [if_pos (hempty hfresh)] at h1
    have h2 := AddCookie_ok sanitizeCookieName sanitizeCookieValue _ _ k2
      (rfl : ({ r with Header := some (h.Set "Cookie"
        (sanitizeCookieName k1.Name ++ "=" ++ sanitizeCookieValue k1.Value)) } : Request).Header
          = some _)
    rw [(hset h _).2.2, if_neg (cookiePair_ne_empty _ _)] at h2
    exact ⟨_, _, _, h1, h2, rfl, (hset _ _).1, (hset _ _).2.1⟩
  refine ⟨?_, ?_, ?_, ?_, ?_⟩
  · exact ⟨_, _, AddCookie_ok sanitizeCookieName sanitizeCookieValue r h c hh, rfl,
      (hset _ _).1, (hset _ _).2.1⟩
  · intro habs
    simp [Header.Get, canonical_Cookie, habs]
  · intro prev rest hsome
    simp [Header.Get, canonical_Cookie, hsome]
  · intro hfresh c2
    exact htwo hfresh c c2
  · intro hfresh ha h1 hb h2
    obtain ⟨r1, r2, m2, e1, e2, e3, e4, e5⟩ := htwo hfresh ⟨"a", "1"⟩ ⟨"b", "2"⟩
    refine ⟨r1, r2, m2, e1, e2, e3, ?_, e5⟩
    rw [e4]
    simp only [ha, h1, hb, h2]
    rfl

/-- C3, amended, on a request as `NewRequest` builds it, with sanitizers that
change nothing: one Cookie value, "a=1; b=2". -/
theorem AddCookie_spec_witness :
    (⟨"GET", ⟨"http://example.com/"⟩, some [], none⟩ : Request).Header = some [] ∧
    ∃ r1 r2 h2,
      Request.AddCookie (fun n => n) (fun v => v)
        ⟨"GET", ⟨"http://example.com/"⟩, some [], none⟩ ⟨"a", "1"⟩ = .ok r1 ∧
      r1.AddCookie (fun n => n) (fun v => v) ⟨"b", "2"⟩ = .ok r2 ∧
      r2.Header = some h2 ∧
      GoMap.get? h2 "Cookie" = some ["a=1; b=2"] ∧
      GoMap.entries h2 "Cookie" = 1 :=
  ⟨rfl, (AddCookie_spec (fun n => n) (fun v => v)
    ⟨"GET", ⟨"http://example.com/"⟩, some [], none⟩ [] ⟨"a", "1"⟩ rfl).2.2.2.2
      rfl rfl rfl rfl rfl⟩

/-! ## Where the code departs from its documentation -/

/-- C8: for a request whose method is the empty string, `RoundTrip` opens the
host exchange with the empty string as method: these are all the host calls
it makes, and none opens with "GET". -/
theorem RoundTrip_empty_method_calls :
    (RoundTrip readPlainMIMEHeader ⟨some 1, some (.load 200 "OK" "" [])⟩ ⟨none⟩ 5
        ⟨"", ⟨"http://example.com/"⟩, some [("Accept", ["text/plain"])], none⟩).calls =
      [.setHandler 1 "onload", .setHandler 1 "onerror", .setHandler 1 "onabort",
       .open 1 "" "http://example.com/", .setResponseType 1 "arraybuffer",
       .setRequestHeader 1 "Accept" "text/plain", .send 1 none] ∧
    HostCall.open 1 "GET" "http://example.com/" ∉
      (RoundTrip readPlainMIMEHeader ⟨some 1, some (.load 200 "OK" "" [])⟩ ⟨none⟩ 5
        ⟨"", ⟨"http://example.com/"⟩, some [("Accept", ["text/plain"])], none⟩).calls := by
  decide

/-- C9: for a request with a body, on the load outcome the response refers
back to the request, and the request's `Body` is still set: it holds the
drained stream, not nil. -/
theorem RoundTrip_body_not_cleared :
    ∃ resp, (RoundTrip readPlainMIMEHeader ⟨some 1, some (.load 200 "OK" "" [7])⟩ ⟨none⟩ 5
        ⟨"POST", ⟨"http://example.com/"⟩, some [], some (.nopCloser ⟨[1, 2, 3], none, false⟩)⟩).result
          = .returned (some resp) none ∧
      resp.Request = 5 ∧
      (RoundTrip readPlainMIMEHeader ⟨some 1, some (.load 200 "OK" "" [7])⟩ ⟨none⟩ 5
        ⟨"POST", ⟨"http://example.com/"⟩, some [], some (.nopCloser ⟨[1, 2, 3], none, false⟩)⟩).request.Body
          = some (.nopCloser ⟨[], none, false⟩) ∧
      (RoundTrip readPlainMIMEHeader ⟨some 1, some (.load 200 "OK" "" [7])⟩ ⟨none⟩ 5
        ⟨"POST", ⟨"http://example.com/"⟩, some [], some (.nopCloser ⟨[1, 2, 3], none, false⟩)⟩).request.Body
          ≠ none := by
  refine ⟨_, rfl, ?_, ?_, ?_⟩ <;> decide

/-- C10: for a HEAD request whose response reports `Content-Length: -5`, the
response that `RoundTrip` returns has `ContentLength` -5, below -1. -/
theorem RoundTrip_HEAD_negative_contentLength :
    ∃ resp, (RoundTrip readPlainMIMEHeader
        ⟨some 1, some (.load 200 "OK" "Content-Length: -5\r\n" [])⟩ ⟨none⟩ 5
        ⟨"HEAD", ⟨"http://example.com/"⟩, some [], none⟩).result = .returned (some resp) none ∧
      resp.ContentLength = -5 ∧ ¬ (-1 ≤ resp.ContentLength) := by
  refine ⟨_, rfl, ?_, ?_⟩ <;> decide

end GopherjsHttp
